import Mathlib

/-!
Verification of the Mastermind scoring core (`day05/mastermind_logic.py`).

The Python class `MasterMindGame` holds three fields (`attempts`,
`num_digits`, `secret`) and exposes `validate_guess`, `evaluate_guess` and
`make_guess`.  Strings are modelled as `List Char`; Python's arbitrary
precision integers as `Int` (counts, which are manifestly non-negative, as
`Nat` with an explicit cast at the one subtraction the code performs).
The random secret generation is modelled by passing the generated secret
into the constructor explicitly.
-/

namespace Mastermind

/-- The positional pass of `evaluate_guess` (lines 20-24): iterate over
`zip(self.secret, guess)` and count the positions where the two characters
agree.  `zip` truncates to the shorter of the two sequences. -/
def exactMatches (secret guess : List Char) : Nat :=
  (secret.zip guess).countP (fun p => p.1 == p.2)

/-- The multiset pass of `evaluate_guess` (lines 26-31): build the two
`Counter`s and sum, over the distinct characters of `guess` (the keys of
`guess_counter`; a missing key of `secret_counter` yields 0), the minimum
of the two counts.  `dedup` gives the distinct characters of `guess`; the
iteration order of the Python dict is irrelevant because `Nat` addition is
commutative. -/
def totalMatches (secret guess : List Char) : Nat :=
  (guess.dedup.map (fun d => min (secret.count d) (guess.count d))).sum

/-- Python `MasterMindGame.evaluate_guess` (lines 19-35): returns the pair
`(exact_matches, total_matches - exact_matches)`.  The subtraction is on
Python ints, hence performed in `Int`. -/
def evaluate_guess (secret guess : List Char) : Int × Int :=
  ((exactMatches secret guess : Int),
    (totalMatches secret guess : Int) - (exactMatches secret guess : Int))

/-- Codepoint ranges (inclusive bounds) of the characters accepted by
Python's `str.isdigit`: the Unicode characters whose Numeric_Type is
Decimal or Digit (Unicode 14.0, the database shipped with CPython 3.11).
The first range is the ASCII digits `'0'..'9'`; the set also contains
non-ASCII digit characters, e.g. the superscripts U+00B2/U+00B3/U+00B9,
the Arabic-Indic digits U+0660..U+0669 and the fullwidth digits
U+FF10..U+FF19. -/
def pyDigitRanges : List (Nat × Nat) := [
    (48, 57), (178, 179), (185, 185), (1632, 1641), (1776, 1785), (1984, 1993),
    (2406, 2415), (2534, 2543), (2662, 2671), (2790, 2799), (2918, 2927), (3046, 3055),
    (3174, 3183), (3302, 3311), (3430, 3439), (3558, 3567), (3664, 3673), (3792, 3801),
    (3872, 3881), (4160, 4169), (4240, 4249), (4969, 4977), (6112, 6121), (6160, 6169),
    (6470, 6479), (6608, 6618), (6784, 6793), (6800, 6809), (6992, 7001), (7088, 7097),
    (7232, 7241), (7248, 7257), (8304, 8304), (8308, 8313), (8320, 8329), (9312, 9320),
    (9332, 9340), (9352, 9360), (9450, 9450), (9461, 9469), (9471, 9471), (10102, 10110),
    (10112, 10120), (10122, 10130), (42528, 42537), (43216, 43225), (43264, 43273), (43472, 43481),
    (43504, 43513), (43600, 43609), (44016, 44025), (65296, 65305), (66720, 66729), (68160, 68163),
    (68912, 68921), (69216, 69224), (69714, 69722), (69734, 69743), (69872, 69881), (69942, 69951),
    (70096, 70105), (70384, 70393), (70736, 70745), (70864, 70873), (71248, 71257), (71360, 71369),
    (71472, 71481), (71904, 71913), (72016, 72025), (72784, 72793), (73040, 73049), (73120, 73129),
    (92768, 92777), (92864, 92873), (93008, 93017), (120782, 120831), (123200, 123209), (123632, 123641),
    (125264, 125273), (127232, 127242), (130032, 130041)]

/-- Python's character-level digit test: a character passes `str.isdigit`
iff its codepoint lies in one of the `pyDigitRanges`. -/
def pyCharIsDigit (c : Char) : Bool :=
  pyDigitRanges.any (fun r => r.1 ≤ c.toNat && c.toNat ≤ r.2)

/-- Python `str.isdigit`: true iff the string is non-empty and every
character is a Unicode digit character (`pyCharIsDigit`); note this is a
strictly larger set than the decimal digits `'0'..'9'`. -/
def str_isdigit (s : List Char) : Bool :=
  !s.isEmpty && s.all pyCharIsDigit

/-- The state of a Python `MasterMindGame` instance: the attempt counter,
the configured length `num_digits` and the secret string. -/
structure MasterMindGame where
  attempts : Nat
  num_digits : Nat
  secret : List Char
  deriving Repr, DecidableEq

/-- Python `MasterMindGame.__init__` (lines 7-10): `attempts = 0`,
`num_digits = 4`, and the secret produced by `_generate_secret_number`
(modelled as an explicit argument, since it is 4 random digits). -/
def mkGame (secret : List Char) : MasterMindGame :=
  { attempts := 0, num_digits := 4, secret := secret }

/-- Python `MasterMindGame.validate_guess` (lines 16-17):
`len(guess) == self.num_digits and guess.isdigit()`. -/
def MasterMindGame.validate_guess (g : MasterMindGame) (guess : List Char) : Bool :=
  guess.length == g.num_digits && str_isdigit guess

/-- Python `MasterMindGame.make_guess` (lines 37-42): increment
`self.attempts`, evaluate the guess against the unchanged secret, and
report `is_winner = (exact == self.num_digits)`.  Returns the triple
together with the updated instance state. -/
def MasterMindGame.make_guess (g : MasterMindGame) (guess : List Char) :
    (Int × Int × Bool) × MasterMindGame :=
  let g' : MasterMindGame := { g with attempts := g.attempts + 1 }
  let r := evaluate_guess g'.secret guess
  ((r.1, r.2, r.1 == (g'.num_digits : Int)), g')

/-- One observable call on a game instance: `validate_guess`,
`evaluate_guess` or `make_guess`, each with its guess argument. -/
inductive Op where
  | validate (guess : List Char)
  | evaluate (guess : List Char)
  | submit (guess : List Char)
  deriving Repr, DecidableEq

/-- The state after one call.  `validate_guess` and `evaluate_guess`
assign no attribute of `self`, so they leave the state unchanged;
`make_guess` yields the updated state it returns. -/
def step (g : MasterMindGame) : Op → MasterMindGame
  | Op.validate _ => g
  | Op.evaluate _ => g
  | Op.submit guess => (g.make_guess guess).2

/-- The state after a sequence of calls. -/
def run (g : MasterMindGame) : List Op → MasterMindGame
  | [] => g
  | op :: ops => run (step g op) ops

/-- Spec-side reading of `exact`: the number of index positions `i` of the
common length on which `secret[i] == guess[i]`. -/
def specExactCommon (secret guess : List Char) : Nat :=
  (List.range (min secret.length guess.length)).countP
    (fun i => secret.getD i ' ' == guess.getD i ' ')

/-- Spec-side reading of `exact` for two sequences of one common length
`N`: the number of index positions `i < N` with `secret[i] == guess[i]`. -/
def specExactAll (secret guess : List Char) : Nat :=
  (List.range secret.length).countP
    (fun i => secret.getD i ' ' == guess.getD i ' ')

/-- Spec-side reading of `total_overlap`: the sum, over the symbols present
in either sequence, of the minimum of the two occurrence counts. -/
def specOverlap (secret guess : List Char) : Nat :=
  ∑ c in (secret ++ guess).toFinset, min (secret.count c) (guess.count c)

/-- Multiset overlap, summed over an arbitrary finite index set `T` of
characters: the term of any character outside the support of `guess`
vanishes, so the value is independent of `T` as long as `T` covers the
support of `guess`. -/
def overlapOn (T : Finset Char) (secret guess : List Char) : Nat :=
  ∑ c in T, min (secret.count c) (guess.count c)

theorem overlapOn_eq_of_subset (T : Finset Char) (s g : List Char)
    (hT : g.toFinset ⊆ T) : overlapOn T s g = overlapOn g.toFinset s g := by
  unfold overlapOn
  refine (Finset.sum_subset hT ?_).symm
  intro c _ hc
  have hg : g.count c = 0 := List.count_eq_zero.mpr (fun h => hc (List.mem_toFinset.mpr h))
  simp [hg]

theorem totalMatches_eq_overlapOn (s g : List Char) (T : Finset Char)
    (hT : g.toFinset ⊆ T) : totalMatches s g = overlapOn T s g := by
  have h1 : totalMatches s g = overlapOn g.toFinset s g := by
    have hd : g.dedup.toFinset = g.toFinset := by
      apply Finset.ext
      intro c
      simp [List.mem_toFinset, List.mem_dedup]
    unfold totalMatches overlapOn
    rw [← hd, List.sum_toFinset _ (List.nodup_dedup g)]
  rw [h1, overlapOn_eq_of_subset T s g hT]

theorem totalMatches_eq_specOverlap (s g : List Char) :
    totalMatches s g = specOverlap s g := by
  have hT : g.toFinset ⊆ (s ++ g).toFinset := by
    rw [List.toFinset_append]
    exact Finset.subset_union_right
  exact totalMatches_eq_overlapOn s g _ hT

theorem specOverlap_comm (s g : List Char) : specOverlap s g = specOverlap g s := by
  unfold specOverlap
  rw [List.toFinset_append, List.toFinset_append, Finset.union_comm]
  exact Finset.sum_congr rfl (fun c _ => min_comm _ _)

theorem exactMatches_nil_left (g : List Char) : exactMatches [] g = 0 := by
  simp [exactMatches]

theorem exactMatches_nil_right (s : List Char) : exactMatches s [] = 0 := by
  cases s <;> simp [exactMatches]

theorem exactMatches_cons (a b : Char) (s g : List Char) :
    exactMatches (a :: s) (b :: g) =
      exactMatches s g + if a = b then 1 else 0 := by
  simp [exactMatches, List.zip_cons_cons, List.countP_cons]

theorem count_cons_le (c a : Char) (l : List Char) :
    l.count c ≤ (a :: l).count c := by
  rw [List.count_cons]
  exact Nat.le_add_right _ _

theorem overlapOn_cons_cons_same (T : Finset Char) (a : Char) (s g : List Char)
    (ha : a ∈ T) :
    overlapOn T (a :: s) (a :: g) = overlapOn T s g + 1 := by
  unfold overlapOn
  rw [← Finset.add_sum_erase T _ ha, ← Finset.add_sum_erase T
    (fun c => min (s.count c) (g.count c)) ha]
  have hmin : min ((a :: s).count a) ((a :: g).count a) =
      min (s.count a) (g.count a) + 1 := by
    rw [List.count_cons_self, List.count_cons_self, Nat.succ_min_succ]
  have hrest : ∑ c in T.erase a, min ((a :: s).count c) ((a :: g).count c) =
      ∑ c in T.erase a, min (s.count c) (g.count c) := by
    refine Finset.sum_congr rfl ?_
    intro c hc
    have hne : a ≠ c := fun h => (Finset.ne_of_mem_erase hc) h.symm
    rw [List.count_cons, List.count_cons]
    simp [hne]
  rw [hmin, hrest]
  omega

theorem overlapOn_le_cons_cons (T : Finset Char) (a b : Char) (s g : List Char) :
    overlapOn T s g ≤ overlapOn T (a :: s) (b :: g) := by
  refine Finset.sum_le_sum ?_
  intro c _
  exact min_le_min (count_cons_le c a s) (count_cons_le c b g)

theorem exactMatches_le_overlapOn (T : Finset Char) :
    ∀ s g : List Char, s.toFinset ⊆ T → g.toFinset ⊆ T →
      exactMatches s g ≤ overlapOn T s g
  | [], g, _, _ => by simp [exactMatches_nil_left]
  | _ :: _, [], _, _ => by simp [exactMatches_nil_right]
  | a :: s, b :: g, hs, hg => by
    have hs' : s.toFinset ⊆ T := by
      intro c hc
      exact hs (by simp [List.mem_toFinset] at hc ⊢; exact Or.inr hc)
    have hg' : g.toFinset ⊆ T := by
      intro c hc
      exact hg (by simp [List.mem_toFinset] at hc ⊢; exact Or.inr hc)
    have ih := exactMatches_le_overlapOn T s g hs' hg'
    rw [exactMatches_cons]
    by_cases hab : a = b
    · subst hab
      have haT : a ∈ T := hs (by simp [List.mem_toFinset])
      rw [overlapOn_cons_cons_same T a s g haT]
      simp
      omega
    · have := overlapOn_le_cons_cons T a b s g
      simp [hab]
      omega

theorem exactMatches_le_totalMatches (s g : List Char) :
    exactMatches s g ≤ totalMatches s g := by
  rw [totalMatches_eq_specOverlap]
  have hT : (s ++ g).toFinset ⊆ (s ++ g).toFinset := Finset.Subset.refl _
  have hs : s.toFinset ⊆ (s ++ g).toFinset := by
    rw [List.toFinset_append]; exact Finset.subset_union_left
  have hg : g.toFinset ⊆ (s ++ g).toFinset := by
    rw [List.toFinset_append]; exact Finset.subset_union_right
  exact exactMatches_le_overlapOn _ s g hs hg

theorem specOverlap_le_length_right (s g : List Char) :
    specOverlap s g ≤ g.length := by
  have hg : g.toFinset ⊆ (s ++ g).toFinset := by
    rw [List.toFinset_append]; exact Finset.subset_union_right
  calc specOverlap s g = overlapOn (s ++ g).toFinset s g := rfl
    _ = overlapOn g.toFinset s g := overlapOn_eq_of_subset _ s g hg
    _ ≤ ∑ c in g.toFinset, g.count c :=
        Finset.sum_le_sum (fun c _ => min_le_right _ _)
    _ = g.length := List.sum_toFinset_count_eq_length g

theorem specOverlap_le_length_left (s g : List Char) :
    specOverlap s g ≤ s.length := by
  rw [specOverlap_comm]
  exact specOverlap_le_length_right g s

theorem exactMatches_le_min (s g : List Char) :
    exactMatches s g ≤ min s.length g.length := by
  calc exactMatches s g ≤ (s.zip g).length := List.countP_le_length _
    _ = min s.length g.length := List.length_zip s g

theorem exactMatches_comm : ∀ s g : List Char, exactMatches s g = exactMatches g s
  | [], g => by rw [exactMatches_nil_left, exactMatches_nil_right]
  | _ :: _, [] => by rw [exactMatches_nil_left, exactMatches_nil_right]
  | a :: s, b :: g => by
    rw [exactMatches_cons, exactMatches_cons, exactMatches_comm s g]
    by_cases hab : a = b
    · subst hab
      rfl
    · rw [if_neg hab, if_neg (fun h => hab h.symm)]

theorem exactMatches_self : ∀ s : List Char, exactMatches s s = s.length
  | [] => rfl
  | a :: s => by
    rw [exactMatches_cons, exactMatches_self s, if_pos rfl, List.length_cons]

theorem exactMatches_eq_length_iff :
    ∀ s g : List Char, s.length = g.length →
      (exactMatches s g = s.length ↔ g = s)
  | [], [], _ => by simp [exactMatches_nil_left]
  | [], _ :: _, h => by simp at h
  | _ :: _, [], h => by simp at h
  | a :: s, b :: g, h => by
    have hlen : s.length = g.length := by
      simpa using h
    have ih := exactMatches_eq_length_iff s g hlen
    have hle := exactMatches_le_min s g
    rw [exactMatches_cons, List.length_cons]
    constructor
    · intro heq
      by_cases hab : a = b
      · subst hab
        rw [if_pos rfl] at heq
        have : exactMatches s g = s.length := by omega
        rw [ih.mp this]
      · rw [if_neg hab] at heq
        omega
    · intro heq
      cases heq
      rw [if_pos rfl, ih.mpr rfl]

theorem exactMatches_eq_specExactCommon :
    ∀ s g : List Char, exactMatches s g = specExactCommon s g
  | [], g => by simp [exactMatches_nil_left, specExactCommon]
  | _ :: _, [] => by simp [exactMatches_nil_right, specExactCommon]
  | a :: s, b :: g => by
    have ih := exactMatches_eq_specExactCommon s g
    rw [exactMatches_cons]
    unfold specExactCommon at ih ⊢
    rw [List.length_cons, List.length_cons, Nat.succ_min_succ,
      List.range_succ_eq_map, List.countP_cons, List.countP_map]
    have hcomp : ((fun i => (a :: s).getD i ' ' == (b :: g).getD i ' ') ∘ Nat.succ) =
        (fun i => s.getD i ' ' == g.getD i ' ') := by
      funext i
      simp [Function.comp, List.getD_cons_succ]
    rw [hcomp, ih]
    have hzero : ((a :: s).getD 0 ' ' == (b :: g).getD 0 ' ') = (a == b) := by
      simp [List.getD_cons_zero]
    rw [hzero]
    by_cases hab : a = b
    · subst hab
      simp
    · have hne : (a == b) = false := by
        simp [hab]
      rw [hne, if_neg hab]
      simp

theorem specExactAll_eq_common (s g : List Char) (h : s.length = g.length) :
    specExactAll s g = specExactCommon s g := by
  unfold specExactAll specExactCommon
  rw [← h, min_self]

theorem evaluate_guess_eq_spec (s g : List Char) :
    evaluate_guess s g =
      ((specExactCommon s g : Int),
        (specOverlap s g : Int) - (specExactCommon s g : Int)) := by
  unfold evaluate_guess
  rw [exactMatches_eq_specExactCommon, totalMatches_eq_specOverlap]

theorem exactMatches_le_specOverlap (s g : List Char) :
    exactMatches s g ≤ specOverlap s g := by
  have := exactMatches_le_totalMatches s g
  rwa [totalMatches_eq_specOverlap] at this

theorem make_guess_state (g : MasterMindGame) (guess : List Char) :
    (g.make_guess guess).2 = { g with attempts := g.attempts + 1 } := rfl

theorem run_state (ops : List Op) : ∀ g : MasterMindGame,
    (run g ops).secret = g.secret ∧ (run g ops).num_digits = g.num_digits := by
  induction ops with
  | nil => intro g; exact ⟨rfl, rfl⟩
  | cons op ops ih =>
    intro g
    have hstep : (step g op).secret = g.secret ∧
        (step g op).num_digits = g.num_digits := by
      cases op with
      | validate _ => exact ⟨rfl, rfl⟩
      | evaluate _ => exact ⟨rfl, rfl⟩
      | submit guess => exact ⟨rfl, rfl⟩
    have := ih (step g op)
    rw [run]
    exact ⟨this.1.trans hstep.1, this.2.trans hstep.2⟩

/-- C1: for every secret and guess of equal length over the digit alphabet,
`evaluate_guess` returns the pair `(exact, total_overlap - exact)` where
`exact` is the number of index positions on which the two sequences agree
and `total_overlap` is the sum over symbols of the minimum of the two
occurrence counts. -/
theorem evaluate_guess_matches_spec (secret guess : List Char)
    (hlen : secret.length = guess.length)
    (hs : ∀ c ∈ secret, c.isDigit = true)
    (hg : ∀ c ∈ guess, c.isDigit = true) :
    evaluate_guess secret guess =
      ((specExactAll secret guess : Int),
        (specOverlap secret guess : Int) - (specExactAll secret guess : Int)) := by
  rw [evaluate_guess_eq_spec, specExactAll_eq_common secret guess hlen]

theorem evaluate_guess_matches_spec_witness :
    "1122".toList.length = "1111".toList.length ∧
    (∀ c ∈ "1122".toList, c.isDigit = true) ∧
    (∀ c ∈ "1111".toList, c.isDigit = true) ∧
    evaluate_guess "1122".toList "1111".toList =
      ((specExactAll "1122".toList "1111".toList : Int),
        (specOverlap "1122".toList "1111".toList : Int) -
          (specExactAll "1122".toList "1111".toList : Int)) :=
  ⟨by decide, by decide, by decide,
    evaluate_guess_matches_spec _ _ (by decide) (by decide) (by decide)⟩

/-- C2: for every secret `S` and guess `G` of equal length `N` over the
alphabet, the result `(exact, wrong_position)` of `evaluate_guess`
satisfies `0 ≤ exact ≤ N`, `0 ≤ wrong_position`,
`exact + wrong_position ≤ min N (multiset overlap of S and G)`, and
`exact = N` holds iff `G = S`. -/
theorem evaluate_guess_invariants (secret guess : List Char)
    (hlen : secret.length = guess.length)
    (hs : ∀ c ∈ secret, c.isDigit = true)
    (hg : ∀ c ∈ guess, c.isDigit = true) :
    0 ≤ (evaluate_guess secret guess).1 ∧
    (evaluate_guess secret guess).1 ≤ (secret.length : Int) ∧
    0 ≤ (evaluate_guess secret guess).2 ∧
    (evaluate_guess secret guess).1 + (evaluate_guess secret guess).2 ≤
      ((min secret.length (specOverlap secret guess) : Nat) : Int) ∧
    ((evaluate_guess secret guess).1 = (secret.length : Int) ↔ guess = secret) := by
  have hev : evaluate_guess secret guess =
      ((exactMatches secret guess : Int),
        (totalMatches secret guess : Int) - (exactMatches secret guess : Int)) := rfl
  rw [hev]
  dsimp only
  have h1 : exactMatches secret guess ≤ secret.length := by
    have := exactMatches_le_min secret guess
    omega
  have h2 : exactMatches secret guess ≤ totalMatches secret guess :=
    exactMatches_le_totalMatches secret guess
  have h3 : totalMatches secret guess = specOverlap secret guess :=
    totalMatches_eq_specOverlap secret guess
  have h4 : specOverlap secret guess ≤ secret.length :=
    specOverlap_le_length_left secret guess
  have h5 := exactMatches_eq_length_iff secret guess hlen
  refine ⟨by omega, by omega, by omega, by omega, ?_⟩
  constructor
  · intro h
    exact h5.mp (by exact_mod_cast h)
  · intro h
    have := h5.mpr h
    exact_mod_cast this

theorem evaluate_guess_invariants_witness :
    "1122".toList.length = "2211".toList.length ∧
    (∀ c ∈ "1122".toList, c.isDigit = true) ∧
    (∀ c ∈ "2211".toList, c.isDigit = true) ∧
    (0 ≤ (evaluate_guess "1122".toList "2211".toList).1 ∧
    (evaluate_guess "1122".toList "2211".toList).1 ≤ ("1122".toList.length : Int) ∧
    0 ≤ (evaluate_guess "1122".toList "2211".toList).2 ∧
    (evaluate_guess "1122".toList "2211".toList).1 +
        (evaluate_guess "1122".toList "2211".toList).2 ≤
      ((min "1122".toList.length (specOverlap "1122".toList "2211".toList) : Nat) : Int) ∧
    ((evaluate_guess "1122".toList "2211".toList).1 = ("1122".toList.length : Int) ↔
      "2211".toList = "1122".toList)) :=
  ⟨by decide, by decide, by decide,
    evaluate_guess_invariants _ _ (by decide) (by decide) (by decide)⟩

/-- C3, counterexample: `evaluate_guess` invoked directly with a guess of
length 2 against the 4-digit secret `"1234"` does not reject: it returns
the ordinary score `(2, 0)` computed after `zip` truncation. -/
theorem evaluate_guess_no_reject_counterexample :
    "12".toList.length ≠ (mkGame "1234".toList).num_digits ∧
    evaluate_guess (mkGame "1234".toList).secret "12".toList = (2, 0) := by
  decide

/-- C3, amended: if `evaluate_guess` is invoked directly with a guess whose
length differs from the secret's, it does not fail: it returns the score
obtained by `zip` truncation, i.e. `exact` counted over the common prefix
of the two sequences and `wrong_position = total_overlap - exact`. -/
theorem evaluate_guess_truncates_on_length_mismatch (secret guess : List Char)
    (hne : secret.length ≠ guess.length) :
    evaluate_guess secret guess =
      ((specExactCommon secret guess : Int),
        (specOverlap secret guess : Int) - (specExactCommon secret guess : Int)) :=
  evaluate_guess_eq_spec secret guess

theorem evaluate_guess_truncates_on_length_mismatch_witness :
    "1234".toList.length ≠ "12".toList.length ∧
    evaluate_guess "1234".toList "12".toList =
      ((specExactCommon "1234".toList "12".toList : Int),
        (specOverlap "1234".toList "12".toList : Int) -
          (specExactCommon "1234".toList "12".toList : Int)) :=
  ⟨by decide, evaluate_guess_truncates_on_length_mismatch _ _ (by decide)⟩

/-- C4, counterexample: the validator accepts the guess `"٢٢٢٢"` — four
Arabic-Indic digit characters U+0662, which Python's `str.isdigit`
accepts — although `'٢'` is not one of the decimal digits `'0'..'9'`
(`Char.isDigit`), so the claimed equivalence with the 0-9 alphabet fails
in the only-if direction. -/
theorem validate_guess_unicode_counterexample :
    (mkGame "1234".toList).validate_guess "٢٢٢٢".toList = true ∧
    '٢' ∈ "٢٢٢٢".toList ∧ '٢'.isDigit = false := by
  decide

/-- C4, amended: the validator of a freshly constructed game accepts a
guess iff it has exactly 4 symbols and every symbol is a character
accepted by Python's `str.isdigit` (a Unicode digit character); every
decimal digit `'0'..'9'` is such a character, so in particular the
all-same-symbol guess `"0000"` is accepted and every other length and
every non-digit symbol is rejected — but non-0-9 Unicode digit characters
are also accepted. -/
theorem validate_guess_amended_spec (secret guess : List Char) :
    ((mkGame secret).validate_guess guess = true ↔
      guess.length = 4 ∧ ∀ c ∈ guess, pyCharIsDigit c = true) ∧
    (∀ c ∈ "0123456789".toList, pyCharIsDigit c = true) ∧
    (mkGame secret).validate_guess "0000".toList = true := by
  refine ⟨?_, by decide, rfl⟩
  unfold MasterMindGame.validate_guess str_isdigit mkGame
  simp only [Bool.and_eq_true, beq_iff_eq, Bool.not_eq_true', List.all_eq_true]
  constructor
  · rintro ⟨hlen, _, hall⟩
    exact ⟨hlen, hall⟩
  · rintro ⟨hlen, hall⟩
    refine ⟨hlen, ?_, hall⟩
    cases guess
    · simp at hlen
    · rfl

/-- C5: one call to `make_guess` increments the attempt counter by exactly
1, whether or not the guess wins, and the returned `is_winner` flag is true
exactly when the exact-match count equals `num_digits`. -/
theorem make_guess_increments_and_win (g : MasterMindGame) (guess : List Char) :
    ((g.make_guess guess).2).attempts = g.attempts + 1 ∧
    ((g.make_guess guess).1.2.2 = true ↔
      (g.make_guess guess).1.1 = (g.num_digits : Int)) := by
  unfold MasterMindGame.make_guess
  exact ⟨rfl, by simp⟩

/-- C6: the worked duplicate-handling examples of the spec hold:
`evaluate_guess "1122" "1111" = (2, 0)`,
`evaluate_guess "1122" "2211" = (0, 4)`,
`evaluate_guess "1234" "1256" = (2, 0)` and
`evaluate_guess "1234" "4321" = (0, 4)`. -/
theorem evaluate_guess_worked_examples :
    evaluate_guess "1122".toList "1111".toList = (2, 0) ∧
    evaluate_guess "1122".toList "2211".toList = (0, 4) ∧
    evaluate_guess "1234".toList "1256".toList = (2, 0) ∧
    evaluate_guess "1234".toList "4321".toList = (0, 4) := by
  decide

/-- C7: for equal-length sequences the sum of the two score components is
symmetric in the two arguments: swapping secret and guess preserves
`exact + wrong_position` (both equal the multiset overlap). -/
theorem evaluate_guess_overlap_symm (s g : List Char)
    (hlen : s.length = g.length) :
    (evaluate_guess s g).1 + (evaluate_guess s g).2 =
      (evaluate_guess g s).1 + (evaluate_guess g s).2 := by
  unfold evaluate_guess
  have h : totalMatches s g = totalMatches g s := by
    rw [totalMatches_eq_specOverlap, totalMatches_eq_specOverlap,
      specOverlap_comm]
  simp only
  omega

theorem evaluate_guess_overlap_symm_witness :
    "1122".toList.length = "1211".toList.length ∧
    (evaluate_guess "1122".toList "1211".toList).1 +
        (evaluate_guess "1122".toList "1211".toList).2 =
      (evaluate_guess "1211".toList "1122".toList).1 +
        (evaluate_guess "1211".toList "1122".toList).2 :=
  ⟨by decide, evaluate_guess_overlap_symm _ _ (by decide)⟩

/-- C8: the secret and the configured length are unchanged by any sequence
of `validate_guess`, `evaluate_guess` and `make_guess` calls after
construction, and `make_guess` changes nothing but the attempt counter. -/
theorem game_secret_immutable (g : MasterMindGame) (ops : List Op) :
    (run g ops).secret = g.secret ∧
    (run g ops).num_digits = g.num_digits ∧
    ∀ guess : List Char,
      (g.make_guess guess).2 = { g with attempts := g.attempts + 1 } :=
  ⟨(run_state ops g).1, (run_state ops g).2, fun guess => make_guess_state g guess⟩

/-- C9: the exact-match component alone is symmetric: for equal-length
sequences, swapping secret and guess leaves the first component of
`evaluate_guess` unchanged, because positional agreement is a symmetric
condition. -/
theorem evaluate_guess_exact_symm (s g : List Char)
    (hlen : s.length = g.length) :
    (evaluate_guess s g).1 = (evaluate_guess g s).1 := by
  unfold evaluate_guess
  simp only
  rw [exactMatches_comm]

theorem evaluate_guess_exact_symm_witness :
    "1122".toList.length = "1211".toList.length ∧
    (evaluate_guess "1122".toList "1211".toList).1 =
      (evaluate_guess "1211".toList "1122".toList).1 :=
  ⟨by decide, evaluate_guess_exact_symm _ _ (by decide)⟩

/-- C10: `evaluate_guess` is total on guesses of any length, including the
empty guess and guesses longer than the secret: the exact component is the
agreement count over the common prefix (`zip` truncation), the second
component is the multiset overlap minus that count, and it is never
negative. -/
theorem evaluate_guess_total_behavior (secret guess : List Char) :
    (evaluate_guess secret guess).1 = (specExactCommon secret guess : Int) ∧
    (evaluate_guess secret guess).2 =
      (specOverlap secret guess : Int) - (specExactCommon secret guess : Int) ∧
    0 ≤ (evaluate_guess secret guess).2 := by
  have hspec := evaluate_guess_eq_spec secret guess
  have h1 : exactMatches secret guess = specExactCommon secret guess :=
    exactMatches_eq_specExactCommon secret guess
  have h2 : exactMatches secret guess ≤ specOverlap secret guess :=
    exactMatches_le_specOverlap secret guess
  have h3 : totalMatches secret guess = specOverlap secret guess :=
    totalMatches_eq_specOverlap secret guess
  refine ⟨by rw [hspec], by rw [hspec], ?_⟩
  have hev : evaluate_guess secret guess =
      ((exactMatches secret guess : Int),
        (totalMatches secret guess : Int) - (exactMatches secret guess : Int)) := rfl
  rw [hev]
  dsimp only
  omega

end Mastermind
